import Mathlib

/-!
Verification of the CloudWatch output plugin core
(`plugins/outputs/cloudwatch/cloudwatch.go`).

The Go source is shallowly embedded below. Pure functions become Lean
functions; the stateful batch-accumulation and retry loops become explicit
state-passing recursions. Machine floats only ever hold exactly
representable values on the paths studied here (small integers, booleans,
unix seconds), so scalar metric values are modelled as rationals.
Components of the repository that are outside the studied file
(distribution resizing, metric decorations, per-datum payload estimation)
are modelled from the specification and marked as such in their doc
comments.
-/

/-! ## Constants (cloudwatch.go, `const` block) -/

def defaultMaxDatumsPerCall : Nat := 20
def defaultMaxValuesPerDatum : Nat := 150
def bottomLinePayloadSizeToPublish : Nat := 200000
def highResolutionTagKey : String := "aws:StorageResolution"
def defaultRetryCount : Nat := 5
def backoffRetryBase : Nat := 200

/-- AWS SDK error code `cloudwatch.ErrCodeLimitExceededFault`. -/
def ErrCodeLimitExceededFault : String := "LimitExceeded"

/-- AWS SDK error code `cloudwatch.ErrCodeInternalServiceFault`. -/
def ErrCodeInternalServiceFault : String := "InternalServiceError"

/-! ## String helpers

Go compares strings byte-wise over UTF-8, which coincides with code-point
lexicographic order; `sort.Strings` sorts ascending in that order. The
built-in `String` order of Lean does not reduce in the kernel, so we use an
executable insertion sort over a code-point comparison. -/

/-- Code-point lexicographic `≤` on character lists (Go byte-wise string
order coincides with it on valid UTF-8). -/
def charListLe : List Char → List Char → Bool
  | [], _ => true
  | _ :: _, [] => false
  | c :: cs, d :: ds =>
    if c.toNat < d.toNat then true
    else if d.toNat < c.toNat then false
    else charListLe cs ds

def strLe (a b : String) : Bool := charListLe a.data b.data

def sortInsert (k : String) : List String → List String
  | [] => [k]
  | x :: xs => if strLe k x then k :: x :: xs else x :: sortInsert k xs

/-- Embedding of `sort.Strings` (insertion sort; on the duplicate-free key
lists produced from a Go map the sorted result is unique, so the choice of
algorithm is immaterial). -/
def sortStrings : List String → List String
  | [] => []
  | x :: xs => sortInsert x (sortStrings xs)

/-- ASCII lower-casing of one character. -/
def asciiLower (c : Char) : Char :=
  if 'A' ≤ c ∧ c ≤ 'Z' then Char.ofNat (c.toNat + 32) else c

/-- Embedding of `strings.EqualFold` restricted to ASCII (the only use in
the source compares against the literal `"true"`). -/
def stringsEqualFold (a b : String) : Bool :=
  a.data.map asciiLower == b.data.map asciiLower

/-! ## Data model -/

/-- One CloudWatch dimension (`cloudwatch.Dimension`: pointed-to name and
value strings; `reflect.DeepEqual` on slices of these is structural
equality on the dereferenced values). -/
structure Dimension where
  name : String
  value : String
deriving DecidableEq

/-- `cloudwatch.StatisticSet`. -/
structure StatisticSet where
  maximum : ℚ
  minimum : ℚ
  sampleCount : ℚ
  sum : ℚ
deriving DecidableEq

/-- `cloudwatch.MetricDatum` as populated by `BuildMetricDatum`: exactly
one of `value` (scalar path) or `values`/`counts`/`statisticValues`
(distribution path) is set; `unit` is set only when non-empty; the
timestamp is an opaque instant (unix seconds). -/
structure MetricDatum where
  metricName : String
  dimensions : List Dimension
  timestamp : Int
  value : Option ℚ
  values : Option (List ℚ)
  counts : Option (List ℚ)
  statisticValues : Option StatisticSet
  unit : Option String
  storageResolution : Option Nat
deriving DecidableEq

/-- `distribution.Distribution`: an ordered sequence of (value, count)
pairs plus aggregate statistics and a unit. -/
structure Distribution where
  entries : List (ℚ × ℚ)
  maximum : ℚ
  minimum : ℚ
  sampleCount : ℚ
  sum : ℚ
  unit : String
deriving DecidableEq

def Distribution.size (d : Distribution) : Nat := d.entries.length

/-- The value of one field of a telegraf metric, mirroring the cases of the
type switch in `BuildMetricDatum` (all unsigned widths collapse to `Nat`,
all signed widths to `Int`, both float widths to `ℚ`; every value a Go
float64 holds on the studied paths is rational). -/
inductive FieldValue where
  | uintV (n : Nat)
  | intV (i : Int)
  | floatV (x : ℚ)
  | boolV (b : Bool)
  | timeV (unixSeconds : Int)
  | distV (d : Distribution)
  | unsupportedV
deriving DecidableEq

/-- A telegraf metric as consumed by `BuildMetricDatum`: name, tag map,
field map and timestamp. Go map iteration order is unspecified, so the
`tags` and `fields` lists record one enumeration of the respective maps
(keys are unique in a Go map). -/
structure MeasurementPoint where
  name : String
  tags : List (String × String)
  fields : List (String × FieldValue)
  time : Int
deriving DecidableEq

/-- The configuration state of the `CloudWatch` output struct that
`BuildMetricDatum` and `ProcessRollup` read. `renames` and
`unitOverrides` model the `MetricDecorations` lookups. Modelled from the
spec: `MetricDecorations` lives outside the studied file; per the spec it
is an optional rename/unit override keyed by (point-name, field-key), an
absent entry rendering as the empty string. `windows` models
`runtime.GOOS == "windows"`. -/
structure CloudWatch where
  MaxValuesPerDatum : Nat
  RollupDimensions : List (List String)
  renames : List ((String × String) × String)
  unitOverrides : List ((String × String) × String)
  windows : Bool

/-- Go map read `mTags[k]` (zero value `""` when absent). -/
def tagsLookup (mTags : List (String × String)) (k : String) : String :=
  (mTags.lookup k).getD ""

/-! ## BuildDimensions (cloudwatch.go lines 519-560) -/

def MaxDimensions : Nat := 10

/-- The `for _, k := range keys` loop of `BuildDimensions`: stop once the
dimension list is full, skip keys with empty values, otherwise append. -/
def buildDimsFrom (mTags : List (String × String)) (dims : List Dimension) :
    List String → List Dimension
  | [] => dims
  | k :: ks =>
    if MaxDimensions ≤ dims.length then dims
    else if tagsLookup mTags k = "" then buildDimsFrom mTags dims ks
    else buildDimsFrom mTags (dims ++ [⟨k, tagsLookup mTags k⟩]) ks

/-- `BuildDimensions`: the `host` tag first when present and non-empty
(`ok && host != ""` is equivalent to the defaulted lookup being
non-empty), then the remaining keys sorted, capped at `MaxDimensions`. -/
def BuildDimensions (mTags : List (String × String)) : List Dimension :=
  let host := tagsLookup mTags "host"
  let dims0 : List Dimension := if host = "" then [] else [⟨"host", host⟩]
  let keys := sortStrings ((mTags.map Prod.fst).filter (fun k => k != "host"))
  buildDimsFrom mTags dims0 keys

/-! ## ProcessRollup (cloudwatch.go lines 562-592) -/

/-- The `rawDimensionMap` built by `ProcessRollup` (later entries of the
slice overwrite earlier ones, hence the reverse lookup). -/
def dimMapLookup (rawDimension : List Dimension) (k : String) : Option String :=
  ((rawDimension.map (fun d => (d.name, d.value))).reverse).lookup k

/-- The inner loop of `ProcessRollup`: fill `extraDimensions` with the
rule's keys in order, abandoning the rule at the first missing key (the
`i == len(targetDimensions)` test succeeds exactly when no key was
missing). -/
def rollupExtra (rawDimension : List Dimension) : List String → Option (List Dimension)
  | [] => some []
  | k :: ks =>
    match dimMapLookup rawDimension k with
    | none => none
    | some val => (rollupExtra rawDimension ks).map (fun rest => ⟨k, val⟩ :: rest)

/-- `ProcessRollup`: the raw dimension set first, then every completed
rollup set that is not `reflect.DeepEqual` to the raw set, in rule
order. -/
def CloudWatch.ProcessRollup (c : CloudWatch) (rawDimension : List Dimension) :
    List (List Dimension) :=
  c.RollupDimensions.foldl
    (fun fullDimensionsList targetDimensions =>
      match rollupExtra rawDimension targetDimensions with
      | some extraDimensions =>
        if extraDimensions = rawDimension then fullDimensionsList
        else fullDimensionsList ++ [extraDimensions]
      | none => fullDimensionsList)
    [rawDimension]

/-! ## GetUniqueRollupList (cloudwatch.go lines 594-613) -/

/-- The inner loop of `GetUniqueRollupList`: scan the snapshot of
`uniqueLists` taken at loop entry, breaking on a `reflect.DeepEqual`
match; `count` tracks the scanned elements and the input is appended the
moment `count` reaches the current (possibly grown) length. -/
def uniqueScan (inputList : List String) :
    List (List String) → Nat → List (List String) → List (List String)
  | [], _, uniqueLists => uniqueLists
  | u :: us, count, uniqueLists =>
    if inputList = u then uniqueLists
    else
      uniqueScan inputList us (count + 1)
        (if count + 1 = uniqueLists.length then uniqueLists ++ [inputList] else uniqueLists)

/-- `GetUniqueRollupList`: seed with the first input (if any), then run the
scan for every input list. -/
def GetUniqueRollupList (inputLists : List (List String)) : List (List String) :=
  let uniqueLists : List (List String) :=
    match inputLists with
    | [] => []
    | l :: _ => [l]
  inputLists.foldl
    (fun uniqueLists inputList => uniqueScan inputList uniqueLists 0 uniqueLists)
    uniqueLists

/-! ## Distribution resizing

Modelled from the spec: `resize` and `setNewDistributionFunc` live in the
`metric/distribution` package, outside the studied file. Per spec section
4.1 the splitter cuts the (value, count) sequence into chunks of at most
`maxValuesPerDatum` entries while every chunk reports the aggregate
statistics of the original distribution; size 0 yields the empty
sequence. -/

/-- Cut a pair sequence into chunks of `m` (structural accumulator
recursion; `cur` is the current chunk reversed, `k` its remaining
capacity). -/
def chunkAux (m : Nat) : List (ℚ × ℚ) → List (ℚ × ℚ) → Nat → List (List (ℚ × ℚ))
  | [], cur, _ => if cur = [] then [] else [cur.reverse]
  | e :: es, cur, 0 => cur.reverse :: chunkAux m es [e] (m - 1)
  | e :: es, cur, k + 1 => chunkAux m es (e :: cur) k

def chunkPairs (m : Nat) (es : List (ℚ × ℚ)) : List (List (ℚ × ℚ)) :=
  chunkAux m es [] m

/-- Modelled from the spec: split a distribution into sub-distributions of
at most `maxValuesPerDatum` entries, each carrying the aggregate
statistics and unit of the original. -/
def resize (d : Distribution) (maxValuesPerDatum : Nat) : List Distribution :=
  (chunkPairs maxValuesPerDatum d.entries).map
    (fun es => ⟨es, d.maximum, d.minimum, d.sampleCount, d.sum, d.unit⟩)

/-! ## Metric decoration (cloudwatch.go lines 378-401) -/

/-- Modelled from the spec: `MetricDecorations.getRename`, an optional
rename keyed by (category, name), empty string when absent. -/
def CloudWatch.getRename (c : CloudWatch) (category name : String) : String :=
  (c.renames.lookup (category, name)).getD ""

def CloudWatch.decorateMetricName (c : CloudWatch) (category name : String) : String :=
  let decoratedName := c.getRename category name
  if decoratedName = "" then
    if name = "value" then category
    else
      let separator := if c.windows then " " else "_"
      category ++ separator ++ name
  else decoratedName

/-- Modelled from the spec: `MetricDecorations.getUnit`, an optional unit
override keyed by (category, name), empty string when absent. -/
def CloudWatch.decorateMetricUnit (c : CloudWatch) (category name : String) : String :=
  (c.unitOverrides.lookup (category, name)).getD ""

/-! ## BuildMetricDatum (cloudwatch.go lines 403-517) -/

/-- The type switch of `BuildMetricDatum`: a supported field yields its
scalar value, a (possibly empty) distribution list and the distribution's
unit; unsupported types and size-0 distributions yield nothing. -/
def convertFieldValue (maxValuesPerDatum : Nat) :
    FieldValue → Option (ℚ × List Distribution × String)
  | .uintV n => some ((n : ℚ), [], "")
  | .intV i => some ((i : ℚ), [], "")
  | .floatV x => some (x, [], "")
  | .boolV b => some (if b then 1 else 0, [], "")
  | .timeV t => some ((t : ℚ), [], "")
  | .distV d =>
    if d.size = 0 then none
    else some (0, resize d maxValuesPerDatum, d.unit)
  | .unsupportedV => none

/-- The body of the `for k, v := range point.Fields()` loop for one field:
decorate name and unit, then emit one datum per dimension set (scalar
path) or one per dimension set and distribution chunk (distribution
path). -/
def buildFieldDatums (c : CloudWatch) (pointName : String) (pointTime : Int)
    (dimensionsList : List (List Dimension)) (isHighResolution : Bool)
    (kv : String × FieldValue) : List MetricDatum :=
  match convertFieldValue c.MaxValuesPerDatum kv.2 with
  | none => []
  | some (value, distList, unit0) =>
    let metricName := c.decorateMetricName pointName kv.1
    let unit := if unit0 = "" then c.decorateMetricUnit pointName kv.1 else unit0
    dimensionsList.flatMap (fun dimensions =>
      if distList = [] then
        [⟨metricName, dimensions, pointTime, some value, none, none, none,
          if unit = "" then none else some unit,
          if isHighResolution then some 1 else none⟩]
      else
        distList.map (fun dist =>
          ⟨metricName, dimensions, pointTime, none,
            some (dist.entries.map Prod.fst), some (dist.entries.map Prod.snd),
            some ⟨dist.maximum, dist.minimum, dist.sampleCount, dist.sum⟩,
            if unit = "" then none else some unit,
            if isHighResolution then some 1 else none⟩))

/-- The high-resolution test of `BuildMetricDatum`: the
`aws:StorageResolution` tag exists and its value is case-insensitively
`"true"`. -/
def isHighResolutionTags (tags : List (String × String)) : Bool :=
  match tags.lookup highResolutionTagKey with
  | some v => stringsEqualFold v "true"
  | none => false

/-- The high-resolution preamble of `BuildMetricDatum`: when the tag is
set, remove it from the point via `point.RemoveTag`. Returns the resulting
tag map and the flag. -/
def tagsAfterHighRes (tags : List (String × String)) : List (String × String) × Bool :=
  if isHighResolutionTags tags then
    (tags.filter (fun kv => kv.1 != highResolutionTagKey), true)
  else (tags, false)

/-- `BuildMetricDatum`. The second component is the point as left behind
by the call (`point.RemoveTag` mutates the caller's point). The field list
records the enumeration order Go's map range produced. -/
def CloudWatch.BuildMetricDatum (c : CloudWatch) (point : MeasurementPoint) :
    List MetricDatum × MeasurementPoint :=
  let tr := tagsAfterHighRes point.tags
  let point1 : MeasurementPoint := ⟨point.name, tr.1, point.fields, point.time⟩
  let rawDimensions := BuildDimensions point1.tags
  let dimensionsList := c.ProcessRollup rawDimensions
  (point1.fields.flatMap (buildFieldDatums c point1.name point1.time dimensionsList tr.2),
    point1)

/-! ## Batch accumulation (cloudwatch.go lines 210-268)

A datum is abstracted to its estimated serialized size: the `payload`
function lives outside the studied file, and per the spec the accumulator
only ever adds the datum's estimated size to the running counter, so the
batching behaviour depends on a datum only through that number.
`BeginTime` (wall clock, used solely by the timer-driven flush) is
omitted. -/

structure MetricDatumBatch where
  MaxDatumsPerCall : Nat
  Partition : List Nat
  Size : Nat
  perRequestConstSize : Nat
deriving DecidableEq

def newMetricDatumBatch (maxDatumsPerCall perRequestConstSize : Nat) : MetricDatumBatch :=
  ⟨maxDatumsPerCall, [], perRequestConstSize, perRequestConstSize⟩

def MetricDatumBatch.clear (b : MetricDatumBatch) : MetricDatumBatch :=
  ⟨b.MaxDatumsPerCall, [], b.perRequestConstSize, b.perRequestConstSize⟩

/-- `MetricDatumBatch.isFull` (cloudwatch.go lines 266-268). -/
def MetricDatumBatch.isFull (b : MetricDatumBatch) : Bool :=
  decide (b.MaxDatumsPerCall ≤ b.Partition.length) ||
    decide (bottomLinePayloadSizeToPublish ≤ b.Size)

/-- The datum-processing part of `pushMetricDatum` (cloudwatch.go lines
218-229): append each datum (represented by its payload estimate) and its
size, flushing to the batch channel whenever the batch becomes full.
Returns the final in-progress batch and the flushed batches in order. -/
def pushMetricDatum :
    MetricDatumBatch → List Nat → MetricDatumBatch × List MetricDatumBatch
  | b, [] => (b, [])
  | b, p :: ps =>
    let b1 : MetricDatumBatch :=
      ⟨b.MaxDatumsPerCall, b.Partition ++ [p], b.Size + p, b.perRequestConstSize⟩
    if b1.isFull then
      let rest := pushMetricDatum b1.clear ps
      (rest.1, b1 :: rest.2)
    else pushMetricDatum b1 ps

/-! ## Retry and backoff (cloudwatch.go lines 327-376) -/

/-- `backoffSleep`: returns the sleep duration in milliseconds together
with the incremented shared retry counter (`c.retries`). The float
computation `backoffRetryBase * math.Pow(2, retries)` is exact for all
`retries ≤ 5`. -/
def backoffSleep (retries : Nat) : Nat × Nat :=
  (if retries ≤ defaultRetryCount then backoffRetryBase * 2 ^ retries else 60 * 1000,
    retries + 1)

/-- The result of one `PutMetricData` call: success, a structured
`awserr.Error` with a code, or an error that cannot be cast to
`awserr.Error`. -/
inductive PutResult where
  | ok
  | awsErr (code : String)
  | plainErr
deriving DecidableEq

/-- Observable outcome of `WriteToCloudWatch`: number of `PutMetricData`
calls made, the backoff sleeps in order, the final shared retry counter
and whether the final `err` is non-nil (and hence logged). -/
structure WriteResult where
  attempts : Nat
  sleeps : List Nat
  retries : Nat
  err : Bool
deriving DecidableEq

/-- The `for i := 0; i < defaultRetryCount; i++` loop of
`WriteToCloudWatch`. `remaining` counts the iterations still allowed and
`i` the current index; `errSoFar` is the current value of `err`. Success
resets the counter and breaks; an uncastable error or a
throttling/internal-fault code sleeps and continues; any other classified
code sleeps and then falls out of the switch into the `break`. -/
def writeLoop (results : Nat → PutResult) :
    Nat → Nat → Nat → Bool → WriteResult
  | 0, _, retries, errSoFar => ⟨0, [], retries, errSoFar⟩
  | remaining + 1, i, retries, _ =>
    match results i with
    | .ok => ⟨1, [], 0, false⟩
    | .plainErr =>
      let s := backoffSleep retries
      let rest := writeLoop results remaining (i + 1) s.2 true
      ⟨rest.attempts + 1, s.1 :: rest.sleeps, rest.retries, rest.err⟩
    | .awsErr code =>
      if code = ErrCodeLimitExceededFault ∨ code = ErrCodeInternalServiceFault then
        let s := backoffSleep retries
        let rest := writeLoop results remaining (i + 1) s.2 true
        ⟨rest.attempts + 1, s.1 :: rest.sleeps, rest.retries, rest.err⟩
      else
        let s := backoffSleep retries
        ⟨1, [s.1], s.2, true⟩

/-- `WriteToCloudWatch` for one task: `results i` is the outcome the
remote call would return on attempt `i`, `retries` the shared counter on
entry. -/
def WriteToCloudWatch (results : Nat → PutResult) (retries : Nat) : WriteResult :=
  writeLoop results defaultRetryCount 0 retries false

/-! ## Specification-side definitions

These restate parts of the spec in its own words, for comparison with the
embedded source. -/

/-- Spec side of C4: the `host` dimension when the tag exists with a
non-empty value. -/
def hostDims (mTags : List (String × String)) : List Dimension :=
  if tagsLookup mTags "host" = "" then [] else [⟨"host", tagsLookup mTags "host"⟩]

/-- Spec side of C4: all non-`host` tags with non-empty values, sorted
lexicographically by key, as dimensions. -/
def sortedTagDims (mTags : List (String × String)) : List Dimension :=
  (((sortStrings ((mTags.map Prod.fst).filter (fun k => k != "host"))).filter
      (fun k => tagsLookup mTags k != "")).map
    (fun k => ⟨k, tagsLookup mTags k⟩))

/-- Spec side of C5: the derived dimension set of one rollup rule —
exactly the rule's keys in the rule's order with values from the raw
dimension set, or nothing if any key is absent. -/
def specDerivedSet (rawDimension : List Dimension) (rule : List String) :
    Option (List Dimension) :=
  if rule.all (fun k => (dimMapLookup rawDimension k).isSome) then
    some (rule.map (fun k => ⟨k, (dimMapLookup rawDimension k).getD ""⟩))
  else none

/-- Spec side of C9: keep a list if no structurally equal list was seen
before it. -/
def dedupStep (acc : List (List String)) (l : List String) : List (List String) :=
  if l ∈ acc then acc else acc ++ [l]

/-- Spec side of C9: first-seen-order deduplication by structural
equality. -/
def dedupFirstSeen (ls : List (List String)) : List (List String) :=
  ls.foldl dedupStep []

/-- Spec side of C5: what a rollup rule contributes to the output — its
derived set, unless a key is missing or the set equals the raw set. -/
def rollupKeep (rawDimension : List Dimension) (rule : List String) :
    Option (List Dimension) :=
  match specDerivedSet rawDimension rule with
  | some e => if e = rawDimension then none else some e
  | none => none

/-- Spec side of C3: how many datums one field contributes per dimension
set — none when unsupported or an empty distribution, one when scalar, one
per chunk when a non-empty distribution. -/
def fieldChunkCount (maxValuesPerDatum : Nat) (v : FieldValue) : Nat :=
  match convertFieldValue maxValuesPerDatum v with
  | none => 0
  | some (_, distList, _) => if distList = [] then 1 else distList.length

/-- The dimension-set list every field of a point fans out over: the raw
dimension set of the point's tags (after high-resolution tag removal) and
its rollups. -/
def dimensionSetsOf (c : CloudWatch) (tags : List (String × String)) :
    List (List Dimension) :=
  c.ProcessRollup (BuildDimensions (tagsAfterHighRes tags).1)

/-- Spec side of C1: the in-progress batch is strictly within both bounds
and its size counter is the request overhead plus its datums' payloads. -/
def BatchLive (maxDatumsPerCall perRequestConstSize : Nat) (b : MetricDatumBatch) : Prop :=
  b.MaxDatumsPerCall = maxDatumsPerCall
  ∧ b.perRequestConstSize = perRequestConstSize
  ∧ b.Partition.length < maxDatumsPerCall
  ∧ b.Size < bottomLinePayloadSizeToPublish
  ∧ b.Size = perRequestConstSize + b.Partition.sum

/-- Spec side of C1 (amended): a batch flushed by the append loop holds at
most `maxDatumsPerCall` datums, is non-empty, its size counter accounts
for the overhead plus its datums, and it was strictly under the payload
ceiling before its final datum was appended. -/
def BatchFlushed (maxDatumsPerCall perRequestConstSize : Nat) (b : MetricDatumBatch) : Prop :=
  b.Partition.length ≤ maxDatumsPerCall
  ∧ b.Partition ≠ []
  ∧ b.Size = perRequestConstSize + b.Partition.sum
  ∧ perRequestConstSize + b.Partition.dropLast.sum < bottomLinePayloadSizeToPublish

/-- Spec side of C2: the error classes the send loop keeps retrying —
throttling, internal service fault, or an error that cannot be cast to
`awserr.Error`. -/
def transientResult (v : PutResult) : Prop :=
  v = PutResult.plainErr
  ∨ v = PutResult.awsErr ErrCodeLimitExceededFault
  ∨ v = PutResult.awsErr ErrCodeInternalServiceFault

/-- Spec side of C2/C6: the backoff schedule of `n` consecutive failures
starting from shared counter value `r`. -/
def backoffSchedule (r : Nat) : Nat → List Nat
  | 0 => []
  | n + 1 => (backoffSleep r).1 :: backoffSchedule (r + 1) n

/-! ## Lemmas about BuildDimensions -/

lemma buildDimsFrom_eq (mTags : List (String × String)) :
    ∀ (ks : List String) (dims : List Dimension),
    buildDimsFrom mTags dims ks =
      dims ++ (((ks.filter (fun k => tagsLookup mTags k != "")).map
        (fun k => (⟨k, tagsLookup mTags k⟩ : Dimension))).take (MaxDimensions - dims.length))
  | [], dims => by simp [buildDimsFrom]
  | k :: ks, dims => by
    by_cases h10 : MaxDimensions ≤ dims.length
    · have h0 : MaxDimensions - dims.length = 0 := Nat.sub_eq_zero_of_le h10
      simp [buildDimsFrom, if_pos h10, h0]
    · by_cases hv : tagsLookup mTags k = ""
      · rw [buildDimsFrom, if_neg h10, if_pos hv, buildDimsFrom_eq mTags ks dims]
        simp [List.filter_cons, hv]
      · rw [buildDimsFrom, if_neg h10, if_neg hv]
        rw [buildDimsFrom_eq mTags ks]
        have hlen : MaxDimensions - dims.length = (MaxDimensions - (dims.length + 1)) + 1 := by
          unfold MaxDimensions at h10 ⊢
          omega
        simp [List.filter_cons, hv, hlen, List.take_succ_cons, List.append_assoc]

lemma hostDims_length_le (mTags : List (String × String)) :
    (hostDims mTags).length ≤ MaxDimensions := by
  unfold hostDims MaxDimensions
  split <;> simp

lemma BuildDimensions_eq (mTags : List (String × String)) :
    BuildDimensions mTags = (hostDims mTags ++ sortedTagDims mTags).take MaxDimensions := by
  rw [List.take_append_eq_append_take, List.take_of_length_le (hostDims_length_le mTags)]
  unfold BuildDimensions hostDims sortedTagDims
  rw [buildDimsFrom_eq]

/-! ## Lemmas about ProcessRollup -/

lemma rollupExtra_eq (rawDimension : List Dimension) :
    ∀ rule : List String, rollupExtra rawDimension rule = specDerivedSet rawDimension rule
  | [] => by simp [rollupExtra, specDerivedSet]
  | k :: ks => by
    rw [rollupExtra]
    cases h : dimMapLookup rawDimension k with
    | none => simp [specDerivedSet, h]
    | some v =>
      rw [rollupExtra_eq rawDimension ks]
      by_cases hall : ks.all (fun k => (dimMapLookup rawDimension k).isSome) = true
      · simp [specDerivedSet, h, hall]
      · simp [specDerivedSet, h, hall]

lemma processRollup_go (rawDimension : List Dimension) :
    ∀ (rules : List (List String)) (acc : List (List Dimension)),
    rules.foldl
      (fun fullDimensionsList targetDimensions =>
        match rollupExtra rawDimension targetDimensions with
        | some extraDimensions =>
          if extraDimensions = rawDimension then fullDimensionsList
          else fullDimensionsList ++ [extraDimensions]
        | none => fullDimensionsList) acc
      = acc ++ rules.filterMap (rollupKeep rawDimension)
  | [], acc => by simp
  | r :: rs, acc => by
    rw [List.foldl_cons, List.filterMap_cons]
    have hstep : (match rollupExtra rawDimension r with
        | some extraDimensions =>
          if extraDimensions = rawDimension then acc else acc ++ [extraDimensions]
        | none => acc)
        = acc ++ (rollupKeep rawDimension r).toList := by
      rw [rollupExtra_eq]
      unfold rollupKeep
      cases m : specDerivedSet rawDimension r with
      | none => simp
      | some e =>
        by_cases he : e = rawDimension
        · simp [he]
        · simp [he]
    rw [hstep, processRollup_go rawDimension rs]
    cases m : rollupKeep rawDimension r with
    | none => simp
    | some e => simp

lemma processRollup_eq (c : CloudWatch) (rawDimension : List Dimension) :
    c.ProcessRollup rawDimension
      = rawDimension :: c.RollupDimensions.filterMap (rollupKeep rawDimension) := by
  unfold CloudWatch.ProcessRollup
  rw [processRollup_go]
  simp

lemma processRollup_length_pos (c : CloudWatch) (rawDimension : List Dimension) :
    1 ≤ (c.ProcessRollup rawDimension).length := by
  rw [processRollup_eq]
  simp

/-! ## Lemmas about GetUniqueRollupList -/

lemma uniqueScan_eq (l : List String) :
    ∀ (us : List (List String)) (count : Nat) (acc : List (List String)),
    count + us.length = acc.length → us ≠ [] →
    uniqueScan l us count acc = if l ∈ us then acc else acc ++ [l]
  | [], _, _, _, hne => absurd rfl hne
  | u :: us, count, acc, h, _ => by
    by_cases he : l = u
    · simp [uniqueScan, he]
    · rw [uniqueScan, if_neg he]
      cases us with
      | nil =>
        have hc : count + 1 = acc.length := by simpa using h
        rw [if_pos hc]
        simp [uniqueScan, he]
      | cons v vs =>
        have hc : ¬ (count + 1 = acc.length) := by
          simp only [List.length_cons] at h
          omega
        rw [if_neg hc]
        rw [uniqueScan_eq l (v :: vs) (count + 1) acc
          (by simp only [List.length_cons] at h ⊢; omega) (by simp)]
        simp [he]

lemma uniqueScan_step (l : List String) (acc : List (List String)) (hne : acc ≠ []) :
    uniqueScan l acc 0 acc = dedupStep acc l := by
  rw [uniqueScan_eq l acc 0 acc (by simp) hne, dedupStep]

lemma dedupStep_ne_nil (acc : List (List String)) (l : List String) :
    dedupStep acc l ≠ [] := by
  unfold dedupStep
  split
  · rename_i hm
    intro hnil
    subst hnil
    simp at hm
  · simp

lemma foldl_scan_eq_dedup :
    ∀ (ls : List (List String)) (acc : List (List String)), acc ≠ [] →
    ls.foldl (fun uniqueLists inputList => uniqueScan inputList uniqueLists 0 uniqueLists) acc
      = ls.foldl dedupStep acc
  | [], _, _ => rfl
  | l :: ls, acc, hne => by
    rw [List.foldl_cons, List.foldl_cons, uniqueScan_step l acc hne,
      foldl_scan_eq_dedup ls (dedupStep acc l) (dedupStep_ne_nil acc l)]

lemma getUnique_eq_dedup (inputLists : List (List String)) :
    GetUniqueRollupList inputLists = dedupFirstSeen inputLists := by
  cases inputLists with
  | nil => rfl
  | cons l rest =>
    unfold GetUniqueRollupList dedupFirstSeen
    rw [foldl_scan_eq_dedup (l :: rest) [l] (by simp), List.foldl_cons, List.foldl_cons]
    have h1 : dedupStep [l] l = [l] := by simp [dedupStep]
    have h2 : dedupStep [] l = [l] := by simp [dedupStep]
    rw [h1, h2]

lemma dedup_mem_sub :
    ∀ (ls : List (List String)) (acc : List (List String)) (x : List String),
    x ∈ ls.foldl dedupStep acc → x ∈ acc ∨ x ∈ ls
  | [], _, _, h => Or.inl h
  | l :: ls, acc, x, h => by
    rw [List.foldl_cons] at h
    rcases dedup_mem_sub ls (dedupStep acc l) x h with h1 | h1
    · by_cases hm : l ∈ acc
      · rw [dedupStep, if_pos hm] at h1
        exact Or.inl h1
      · rw [dedupStep, if_neg hm] at h1
        rcases List.mem_append.mp h1 with h2 | h2
        · exact Or.inl h2
        · simp only [List.mem_singleton] at h2
          subst h2
          exact Or.inr (List.mem_cons_self x ls)
    · exact Or.inr (List.mem_cons_of_mem l h1)

lemma dedup_mem_mono :
    ∀ (ls : List (List String)) (acc : List (List String)) (x : List String),
    x ∈ acc → x ∈ ls.foldl dedupStep acc
  | [], _, _, h => h
  | l :: ls, acc, x, h => by
    rw [List.foldl_cons]
    apply dedup_mem_mono ls (dedupStep acc l) x
    by_cases hm : l ∈ acc
    · rw [dedupStep, if_pos hm]
      exact h
    · rw [dedupStep, if_neg hm]
      exact List.mem_append_left _ h

lemma dedup_mem_of_mem :
    ∀ (ls : List (List String)) (acc : List (List String)) (x : List String),
    x ∈ ls → x ∈ ls.foldl dedupStep acc
  | l :: ls, acc, x, h => by
    rw [List.foldl_cons]
    rcases List.mem_cons.mp h with h1 | h1
    · subst h1
      apply dedup_mem_mono
      by_cases hm : x ∈ acc
      · rw [dedupStep, if_pos hm]
        exact hm
      · rw [dedupStep, if_neg hm]
        simp
    · exact dedup_mem_of_mem ls (dedupStep acc l) x h1

lemma dedup_nodup :
    ∀ (ls : List (List String)) (acc : List (List String)),
    acc.Nodup → (ls.foldl dedupStep acc).Nodup
  | [], _, h => h
  | l :: ls, acc, h => by
    rw [List.foldl_cons]
    apply dedup_nodup ls
    by_cases hm : l ∈ acc
    · rw [dedupStep, if_pos hm]
      exact h
    · rw [dedupStep, if_neg hm]
      rw [List.nodup_append]
      refine ⟨h, List.nodup_singleton l, ?_⟩
      intro a ha hal
      simp only [List.mem_singleton] at hal
      subst hal
      exact hm ha

/-! ## Claim C4 -/

/-- Claim C4: for every tag map, `BuildDimensions` returns at most 10
dimensions; when a `host` tag with non-empty value exists it is at index
0; the remaining tags with non-empty values follow sorted
lexicographically by key; tags with empty values are excluded; and the
`host` dimension counts toward the 10-entry cap (the whole list is a
10-prefix of host-then-sorted-rest). -/
theorem BuildDimensions_spec (mTags : List (String × String)) :
    BuildDimensions mTags = (hostDims mTags ++ sortedTagDims mTags).take MaxDimensions
    ∧ (BuildDimensions mTags).length ≤ 10
    ∧ (∀ hv, mTags.lookup "host" = some hv → hv ≠ "" →
        (BuildDimensions mTags).head? = some ⟨"host", hv⟩) := by
  refine ⟨BuildDimensions_eq mTags, ?_, ?_⟩
  · rw [BuildDimensions_eq mTags]
    exact List.length_take_le _ _
  · intro hv hlook hne
    rw [BuildDimensions_eq mTags]
    have hh : tagsLookup mTags "host" = hv := by
      rw [tagsLookup, hlook]
      rfl
    rw [hostDims, hh, if_neg hne]
    rw [MaxDimensions]
    simp

/-- Witness for C4 at a concrete tag map. -/
theorem BuildDimensions_spec_witness :
    (BuildDimensions [("az", "a"), ("host", "h1"), ("empty", "")]).head?
      = some ⟨"host", "h1"⟩ :=
  (BuildDimensions_spec [("az", "a"), ("host", "h1"), ("empty", "")]).2.2
    "h1" (by decide) (by decide)

/-! ## Claim C5 -/

/-- Claim C5: `ProcessRollup` returns the raw dimension set first,
followed, in rule order, by the derived set of every rule all of whose
keys are present (exactly the rule's keys in the rule's order, with the
values the raw set holds for them); a rule with a missing key contributes
nothing, as does a derived set structurally identical to the raw set. -/
theorem ProcessRollup_spec (c : CloudWatch) (rawDimension : List Dimension) :
    c.ProcessRollup rawDimension
      = rawDimension :: c.RollupDimensions.filterMap (rollupKeep rawDimension) :=
  processRollup_eq c rawDimension

/-! ## Claim C9 -/

/-- Claim C9: `GetUniqueRollupList` deduplicates by structural equality in
first-seen order: it equals the canonical first-seen dedup, every output
element occurs in the input, no two output elements are equal, and every
input element occurs in the output. -/
theorem GetUniqueRollupList_spec (inputLists : List (List String)) :
    GetUniqueRollupList inputLists = dedupFirstSeen inputLists
    ∧ (∀ x, x ∈ GetUniqueRollupList inputLists → x ∈ inputLists)
    ∧ (GetUniqueRollupList inputLists).Nodup
    ∧ (∀ x, x ∈ inputLists → x ∈ GetUniqueRollupList inputLists) := by
  refine ⟨getUnique_eq_dedup inputLists, ?_, ?_, ?_⟩
  · intro x hx
    rw [getUnique_eq_dedup, dedupFirstSeen] at hx
    rcases dedup_mem_sub inputLists [] x hx with h | h
    · simp at h
    · exact h
  · rw [getUnique_eq_dedup, dedupFirstSeen]
    exact dedup_nodup inputLists [] (List.nodup_nil)
  · intro x hx
    rw [getUnique_eq_dedup, dedupFirstSeen]
    exact dedup_mem_of_mem inputLists [] x hx

/-- Witness for C9 at a concrete rule list. -/
theorem GetUniqueRollupList_spec_witness :
    (["az"] : List String) ∈ [["host"], ["az"], ["host"]]
    ∧ (["host"] : List String) ∈ GetUniqueRollupList [["host"], ["az"], ["host"]] :=
  ⟨(GetUniqueRollupList_spec [["host"], ["az"], ["host"]]).2.1 ["az"] (by decide),
   (GetUniqueRollupList_spec [["host"], ["az"], ["host"]]).2.2.2 ["host"] (by decide)⟩

/-! ## Lemmas about batch accumulation -/

lemma pushMetricDatum_inv (maxD const : Nat) (h1 : 1 ≤ maxD)
    (h2 : const < bottomLinePayloadSizeToPublish) :
    ∀ (ps : List Nat) (b : MetricDatumBatch), BatchLive maxD const b →
    BatchLive maxD const (pushMetricDatum b ps).1
    ∧ ∀ fb ∈ (pushMetricDatum b ps).2, BatchFlushed maxD const fb
  | [], b, hb => by
    rw [pushMetricDatum]
    exact ⟨hb, by simp⟩
  | p :: ps, b, hb => by
    obtain ⟨hmax, hconst, hlen, hsize, hsum⟩ := hb
    rw [pushMetricDatum]
    simp only []
    by_cases hf :
        (⟨b.MaxDatumsPerCall, b.Partition ++ [p], b.Size + p, b.perRequestConstSize⟩ :
          MetricDatumBatch).isFull = true
    · rw [if_pos hf]
      have hclear : BatchLive maxD const
          (⟨b.MaxDatumsPerCall, b.Partition ++ [p], b.Size + p, b.perRequestConstSize⟩ :
            MetricDatumBatch).clear := by
        refine ⟨hmax, hconst, ?_, ?_, ?_⟩
        · simp only [MetricDatumBatch.clear, List.length_nil]
          exact h1
        · simp only [MetricDatumBatch.clear]
          rw [hconst]
          exact h2
        · simp [MetricDatumBatch.clear, hconst]
      have hrest := pushMetricDatum_inv maxD const h1 h2 ps _ hclear
      refine ⟨hrest.1, ?_⟩
      intro fb hfb
      simp only [List.mem_cons] at hfb
      rcases hfb with hfb | hfb
      · subst hfb
        refine ⟨?_, by simp, ?_, ?_⟩
        · simpa using hlen
        · simp only [hconst, hsum, List.sum_append, List.sum_cons, List.sum_nil]
          omega
        · simpa [List.dropLast_concat, hconst, hsum.symm] using hsize
      · exact hrest.2 fb hfb
    · rw [if_neg hf]
      have hb1 : BatchLive maxD const
          (⟨b.MaxDatumsPerCall, b.Partition ++ [p], b.Size + p, b.perRequestConstSize⟩ :
            MetricDatumBatch) := by
        simp only [MetricDatumBatch.isFull, Bool.or_eq_true, decide_eq_true_eq,
          not_or] at hf
        push_neg at hf
        refine ⟨hmax, hconst, ?_, ?_, ?_⟩
        · simpa [hmax] using hf.1
        · simpa using hf.2
        · simp only [hconst, hsum, List.sum_append, List.sum_cons, List.sum_nil]
          omega
      exact pushMetricDatum_inv maxD const h1 h2 ps _ hb1

/-! ## Claim C1 -/

/-- Claim C1 (amended): starting from a fresh batch, the append loop keeps
the live batch strictly within both bounds, so every flushed batch has at
most `maxDatumsPerCall` datums (never more); a flushed batch's size
estimate, however, may reach or exceed the 200000 ceiling by up to its
final datum's payload — it was strictly under the ceiling only before that
final append, because the loop flushes after, not before, the append that
crosses a bound. -/
theorem pushMetricDatum_batch_bounds (maxD const : Nat) (ps : List Nat)
    (h1 : 1 ≤ maxD) (h2 : const < bottomLinePayloadSizeToPublish) :
    BatchLive maxD const (pushMetricDatum (newMetricDatumBatch maxD const) ps).1
    ∧ ∀ fb ∈ (pushMetricDatum (newMetricDatumBatch maxD const) ps).2,
        BatchFlushed maxD const fb := by
  apply pushMetricDatum_inv maxD const h1 h2
  refine ⟨rfl, rfl, ?_, ?_, ?_⟩
  · simp only [newMetricDatumBatch, List.length_nil]
    exact h1
  · exact h2
  · simp [newMetricDatumBatch]

/-- Witness for C1 (amended) at a concrete run. -/
theorem pushMetricDatum_batch_bounds_witness :
    BatchLive 20 7000 (pushMetricDatum (newMetricDatumBatch 20 7000) [100, 200]).1
    ∧ ∀ fb ∈ (pushMetricDatum (newMetricDatumBatch 20 7000) [100, 200]).2,
        BatchFlushed 20 7000 fb :=
  pushMetricDatum_batch_bounds 20 7000 [100, 200] (by decide) (by decide)

/-- Claim C1 counterexample: thirteen datums of payload 15000 against
`maxDatumsPerCall = 20` and request overhead 7000 flush a batch whose size
estimate is 202000, at and above the 200000 ceiling — refuting that a
flushed batch always has `size < bottomLinePayloadSizeToPublish`. -/
theorem pushMetricDatum_size_cex :
    (pushMetricDatum (newMetricDatumBatch 20 7000) (List.replicate 13 15000)).2
      = [⟨20, List.replicate 13 15000, 202000, 7000⟩]
    ∧ bottomLinePayloadSizeToPublish
        ≤ ((pushMetricDatum (newMetricDatumBatch 20 7000)
            (List.replicate 13 15000)).2.headD (newMetricDatumBatch 20 7000)).Size :=
  ⟨by decide, by decide⟩

/-! ## Lemmas about the retry loop -/

lemma writeLoop_success_resets (results : Nat → PutResult) :
    ∀ (rem i r : Nat), (writeLoop results rem i r true).err = false →
    (writeLoop results rem i r true).retries = 0
  | 0, i, r, h => by
    rw [writeLoop] at h
    simp at h
  | rem + 1, i, r, h => by
    rw [writeLoop] at h ⊢
    cases hres : results i with
    | ok => simp [hres]
    | plainErr =>
      simp only [hres] at h ⊢
      exact writeLoop_success_resets results rem (i + 1) _ h
    | awsErr code =>
      by_cases hc : code = ErrCodeLimitExceededFault ∨ code = ErrCodeInternalServiceFault
      · simp only [hres, if_pos hc] at h ⊢
        exact writeLoop_success_resets results rem (i + 1) _ h
      · simp only [hres, if_neg hc] at h
        simp at h

lemma writeToCloudWatch_success_resets (results : Nat → PutResult) (r : Nat) :
    (WriteToCloudWatch results r).err = false → (WriteToCloudWatch results r).retries = 0 := by
  intro h
  rw [WriteToCloudWatch, defaultRetryCount] at h ⊢
  rw [show (5 : Nat) = 4 + 1 from rfl] at h ⊢
  rw [writeLoop] at h ⊢
  cases hres : results 0 with
  | ok => simp [hres]
  | plainErr =>
    simp only [hres] at h ⊢
    exact writeLoop_success_resets results 4 1 _ h
  | awsErr code =>
    by_cases hc : code = ErrCodeLimitExceededFault ∨ code = ErrCodeInternalServiceFault
    · simp only [hres, if_pos hc] at h ⊢
      exact writeLoop_success_resets results 4 1 _ h
    · simp only [hres, if_neg hc] at h
      simp at h

lemma writeLoop_all_transient (results : Nat → PutResult)
    (htrans : ∀ i, transientResult (results i)) :
    ∀ (rem i r : Nat),
    writeLoop results rem i r true = ⟨rem, backoffSchedule r rem, r + rem, true⟩
  | 0, _, r => by
    rw [writeLoop, backoffSchedule]
    simp
  | rem + 1, i, r => by
    rcases htrans i with hres | hres | hres <;>
    · simp only [writeLoop, hres]
      simp [writeLoop_all_transient results htrans rem (i + 1), backoffSchedule,
        backoffSleep, Nat.add_assoc, Nat.add_comm, Nat.add_left_comm]

lemma writeLoop_all_transient_any (results : Nat → PutResult)
    (htrans : ∀ i, transientResult (results i)) (rem i r : Nat) (e : Bool) :
    writeLoop results (rem + 1) i r e
      = ⟨rem + 1, backoffSchedule r (rem + 1), r + (rem + 1), true⟩ := by
  rcases htrans i with hres | hres | hres <;>
  · simp only [writeLoop, hres]
    simp [writeLoop_all_transient results htrans rem (i + 1), backoffSchedule,
      backoffSleep, Nat.add_assoc, Nat.add_comm, Nat.add_left_comm]

lemma writeLoop_break (results : Nat → PutResult) (rem i r : Nat) (e : Bool) (code : String)
    (h : results i = PutResult.awsErr code)
    (hc1 : code ≠ ErrCodeLimitExceededFault) (hc2 : code ≠ ErrCodeInternalServiceFault) :
    writeLoop results (rem + 1) i r e
      = ⟨1, [(backoffSleep r).1], (backoffSleep r).2, true⟩ := by
  rw [writeLoop, h]
  dsimp only
  rw [if_neg (not_or.mpr ⟨hc1, hc2⟩)]

/-! ## Claim C2 -/

/-- Claim C2 (amended): a send failing with an error that cannot be cast
to `awserr.Error`, or with a throttling or internal-service-fault code, is
retried on the shared backoff schedule up to the fixed budget of 5
attempts per task, the final error being logged; but a send failing with
any *other* classified error code backs off once and then breaks out of
the loop — it is not retried, even though attempts remain in the
budget. -/
theorem WriteToCloudWatch_retry_spec :
    (∀ (results : Nat → PutResult) (r : Nat), (∀ i, transientResult (results i)) →
      WriteToCloudWatch results r = ⟨5, backoffSchedule r 5, r + 5, true⟩)
    ∧ (∀ (results : Nat → PutResult) (r : Nat) (code : String),
        results 0 = PutResult.awsErr code →
        code ≠ ErrCodeLimitExceededFault → code ≠ ErrCodeInternalServiceFault →
        WriteToCloudWatch results r = ⟨1, [(backoffSleep r).1], r + 1, true⟩) := by
  constructor
  · intro results r htrans
    rw [WriteToCloudWatch, defaultRetryCount, show (5 : Nat) = 4 + 1 from rfl]
    exact writeLoop_all_transient_any results htrans 4 0 r false
  · intro results r code hres hc1 hc2
    rw [WriteToCloudWatch, defaultRetryCount, show (5 : Nat) = 4 + 1 from rfl]
    rw [writeLoop_break results 4 0 r false code hres hc1 hc2]
    rfl

/-- Witness for C2 (amended): five throttling failures exhaust the
budget; a classified non-transient code stops after one attempt. -/
theorem WriteToCloudWatch_retry_spec_witness :
    WriteToCloudWatch (fun _ => PutResult.awsErr "LimitExceeded") 0
      = ⟨5, backoffSchedule 0 5, 5, true⟩
    ∧ WriteToCloudWatch (fun _ => PutResult.awsErr "AccessDenied") 0
      = ⟨1, [(backoffSleep 0).1], 1, true⟩ :=
  ⟨WriteToCloudWatch_retry_spec.1 (fun _ => PutResult.awsErr "LimitExceeded") 0
      (fun _ => Or.inr (Or.inl rfl)),
   WriteToCloudWatch_retry_spec.2 (fun _ => PutResult.awsErr "AccessDenied") 0
      "AccessDenied" rfl (by decide) (by decide)⟩

/-- Claim C2 counterexample: a classified but non-throttling error
(`InvalidParameterValue`) on the first attempt is not retried — the loop
gives up after a single attempt with the error logged, although the next
attempt would have succeeded, refuting that every failed send is retried
up to the 5-attempt budget. -/
theorem WriteToCloudWatch_no_retry_cex :
    (fun i => if i = 0 then PutResult.awsErr "InvalidParameterValue" else PutResult.ok) 1
      = PutResult.ok
    ∧ (WriteToCloudWatch
        (fun i => if i = 0 then PutResult.awsErr "InvalidParameterValue" else PutResult.ok)
        0).err = true
    ∧ (WriteToCloudWatch
        (fun i => if i = 0 then PutResult.awsErr "InvalidParameterValue" else PutResult.ok)
        0).attempts = 1 :=
  ⟨rfl, by decide, by decide⟩

/-! ## Claim C6 -/

/-- Claim C6: for a shared counter value in 0..5 `backoffSleep` sleeps
exactly `backoffRetryBase * 2 ^ retries` milliseconds and increments the
counter; for a counter value of 6 or more it sleeps the fixed fallback of
one minute instead; and a successful send makes `WriteToCloudWatch` reset
the counter to 0. -/
theorem backoffSleep_reset_spec :
    (∀ r, r ≤ 5 → backoffSleep r = (200 * 2 ^ r, r + 1))
    ∧ (∀ r, 6 ≤ r → backoffSleep r = (60000, r + 1))
    ∧ (∀ (results : Nat → PutResult) (r : Nat),
        (WriteToCloudWatch results r).err = false →
        (WriteToCloudWatch results r).retries = 0) := by
  refine ⟨?_, ?_, writeToCloudWatch_success_resets⟩
  · intro r h
    rw [backoffSleep, if_pos (by rw [defaultRetryCount]; exact h), backoffRetryBase]
  · intro r h
    rw [backoffSleep, if_neg (by rw [defaultRetryCount]; omega)]

/-- Witness for C6 at concrete counter values and a concrete successful
send. -/
theorem backoffSleep_reset_spec_witness :
    backoffSleep 3 = (1600, 4)
    ∧ backoffSleep 7 = (60000, 8)
    ∧ (WriteToCloudWatch (fun _ => PutResult.ok) 4).retries = 0 :=
  ⟨backoffSleep_reset_spec.1 3 (by decide),
   backoffSleep_reset_spec.2.1 7 (by decide),
   backoffSleep_reset_spec.2.2 (fun _ => PutResult.ok) 4 (by decide)⟩

/-! ## Lemmas about BuildMetricDatum -/

lemma listSumConst {α : Type} (l : List α) (c : Nat) :
    (l.map (fun _ => c)).sum = l.length * c := by
  induction l with
  | nil => simp
  | cons x xs ih => simp [ih, Nat.add_mul, Nat.add_comm]

lemma flatMapSingle {α β : Type} (l : List α) (g : α → β) :
    (l.flatMap fun a => [g a]) = l.map g := by
  induction l with
  | nil => rfl
  | cons x xs ih => simp [List.flatMap_cons, ih]

lemma mapFunConst {α β : Type} (l : List α) (c : β) :
    l.map (fun _ => c) = List.replicate l.length c := by
  induction l with
  | nil => rfl
  | cons x xs ih => simp [ih, List.replicate_succ]

lemma buildMetricDatum_fst (c : CloudWatch) (point : MeasurementPoint) :
    (c.BuildMetricDatum point).1
      = point.fields.flatMap
          (buildFieldDatums c point.name point.time (dimensionSetsOf c point.tags)
            (tagsAfterHighRes point.tags).2) := rfl

lemma buildMetricDatum_snd (c : CloudWatch) (point : MeasurementPoint) :
    (c.BuildMetricDatum point).2
      = ⟨point.name, (tagsAfterHighRes point.tags).1, point.fields, point.time⟩ := rfl

lemma buildFieldDatums_length (c : CloudWatch) (pointName : String) (pointTime : Int)
    (dimensionsList : List (List Dimension)) (isHighResolution : Bool)
    (kv : String × FieldValue) :
    (buildFieldDatums c pointName pointTime dimensionsList isHighResolution kv).length
      = dimensionsList.length * fieldChunkCount c.MaxValuesPerDatum kv.2 := by
  rw [buildFieldDatums, fieldChunkCount]
  cases hcv : convertFieldValue c.MaxValuesPerDatum kv.2 with
  | none => simp
  | some triple =>
    obtain ⟨value, distList, unit0⟩ := triple
    by_cases hd : distList = []
    · subst hd
      simp [List.length_flatMap, Function.comp_def, listSumConst]
    · simp [List.length_flatMap, Function.comp_def, hd, listSumConst]

/-! ## Claim C3 -/

/-- Claim C3: the datum count of `BuildMetricDatum` is the number of
dimension sets times the sum over fields of the per-field chunk count (1
for each supported scalar field, the number of split chunks for each
non-empty distribution field, 0 for unsupported fields); in particular a
field holding a size-0 distribution contributes zero datums. -/
theorem BuildMetricDatum_count_spec (c : CloudWatch) (point : MeasurementPoint) :
    ((c.BuildMetricDatum point).1).length
      = (dimensionSetsOf c point.tags).length
        * (point.fields.map (fun kv => fieldChunkCount c.MaxValuesPerDatum kv.2)).sum
    ∧ (∀ (m : Nat) (mx mn sc sm : ℚ) (u : String),
        fieldChunkCount m (FieldValue.distV ⟨[], mx, mn, sc, sm, u⟩) = 0) := by
  constructor
  · rw [buildMetricDatum_fst, List.length_flatMap]
    have hmap : point.fields.map (List.length ∘
          buildFieldDatums c point.name point.time (dimensionSetsOf c point.tags)
            (tagsAfterHighRes point.tags).2)
        = point.fields.map (fun kv => (dimensionSetsOf c point.tags).length
            * fieldChunkCount c.MaxValuesPerDatum kv.2) := by
      apply List.map_congr_left
      intro kv _
      exact buildFieldDatums_length c point.name point.time _ _ kv
    rw [hmap, List.sum_map_mul_left]
  · intro m mx mn sc sm u
    rfl

/-! ## Claim C7 -/

/-- Claim C7 (amended): for a fixed enumeration order of the field map,
`BuildMetricDatum` is a pure function producing the cross-product in
field-then-dimension-then-chunk order; but the field order itself comes
from Go map iteration, which is unspecified across runs, so two runs on
the same point agree only up to permutation: permuting the field
enumeration permutes the datum list accordingly. -/
theorem BuildMetricDatum_perm_spec (c : CloudWatch) (p q : MeasurementPoint)
    (hn : p.name = q.name) (ht : p.tags = q.tags) (htm : p.time = q.time)
    (hf : List.Perm p.fields q.fields) :
    List.Perm ((c.BuildMetricDatum p).1) ((c.BuildMetricDatum q).1) := by
  rw [buildMetricDatum_fst, buildMetricDatum_fst, hn, ht, htm]
  exact List.Perm.flatMap_right _ hf

def cfgC7 : CloudWatch := ⟨150, [], [], [], false⟩

def pC7a : MeasurementPoint :=
  ⟨"cpu", [("host", "h1")], [("a", FieldValue.intV 1), ("b", FieldValue.intV 2)], 0⟩

def pC7b : MeasurementPoint :=
  ⟨"cpu", [("host", "h1")], [("b", FieldValue.intV 2), ("a", FieldValue.intV 1)], 0⟩

/-- Witness for C7 (amended) at two concrete enumerations of one field
map. -/
theorem BuildMetricDatum_perm_spec_witness :
    List.Perm ((cfgC7.BuildMetricDatum pC7a).1) ((cfgC7.BuildMetricDatum pC7b).1) :=
  BuildMetricDatum_perm_spec cfgC7 pC7a pC7b rfl rfl rfl (by decide)

/-- Claim C7 counterexample: the two points are the same point (same
name, tags, time, and the same field map up to enumeration order), yet the
two runs of `BuildMetricDatum` produce datum lists in different orders. -/
theorem BuildMetricDatum_order_cex :
    pC7a.name = pC7b.name ∧ pC7a.tags = pC7b.tags ∧ pC7a.time = pC7b.time
    ∧ List.Perm pC7a.fields pC7b.fields
    ∧ (cfgC7.BuildMetricDatum pC7a).1 ≠ (cfgC7.BuildMetricDatum pC7b).1 :=
  ⟨rfl, rfl, rfl, by decide, by decide⟩

/-! ## Claim C8 -/

/-- Claim C8 (amended): `BuildMetricDatum` leaves the point's name, fields
and timestamp unchanged, and leaves the tags unchanged too *unless* the
point carries the reserved high-resolution tag with value
case-insensitively `"true"`, in which case exactly that tag is removed
from the caller's point (`point.RemoveTag` mutates it). -/
theorem BuildMetricDatum_frame_spec (c : CloudWatch) (p : MeasurementPoint) :
    ((c.BuildMetricDatum p).2).name = p.name
    ∧ ((c.BuildMetricDatum p).2).fields = p.fields
    ∧ ((c.BuildMetricDatum p).2).time = p.time
    ∧ ((c.BuildMetricDatum p).2).tags
        = (if isHighResolutionTags p.tags
           then p.tags.filter (fun kv => kv.1 != highResolutionTagKey)
           else p.tags) := by
  rw [buildMetricDatum_snd]
  refine ⟨rfl, rfl, rfl, ?_⟩
  by_cases hh : isHighResolutionTags p.tags = true
  · simp [tagsAfterHighRes, hh]
  · simp [tagsAfterHighRes, hh]

def cfgC8 : CloudWatch := ⟨150, [], [], [], false⟩

def pC8 : MeasurementPoint :=
  ⟨"cpu", [("aws:StorageResolution", "true"), ("host", "h1")],
    [("f", FieldValue.floatV 1)], 0⟩

/-- Claim C8 counterexample: on a point carrying the reserved
high-resolution tag with value `"true"`, the point that
`BuildMetricDatum` leaves behind no longer has the tags it came with —
the input point is mutated, not left unchanged. -/
theorem BuildMetricDatum_mutation_cex :
    ((cfgC8.BuildMetricDatum pC8).2).tags ≠ pC8.tags := by decide

/-! ## Claim C10 -/

/-- Claim C10: a boolean field maps to a scalar datum value of exactly 1
when true and 0 when false, and a timestamp field maps to a scalar value
equal to its unix epoch seconds; neither is an error or a skip — each
produces one datum per dimension set, and there is always at least one
dimension set. -/
theorem BuildMetricDatum_bool_time_spec (c : CloudWatch) (pname : String)
    (tags : List (String × String)) (tm : Int) (k1 : String) (b : Bool)
    (k2 : String) (ts : Int) :
    ((c.BuildMetricDatum ⟨pname, tags, [(k1, FieldValue.boolV b)], tm⟩).1).map
        (fun d => d.value)
      = List.replicate (dimensionSetsOf c tags).length (some (if b then (1 : ℚ) else 0))
    ∧ ((c.BuildMetricDatum ⟨pname, tags, [(k2, FieldValue.timeV ts)], tm⟩).1).map
        (fun d => d.value)
      = List.replicate (dimensionSetsOf c tags).length (some ((ts : ℚ)))
    ∧ 1 ≤ (dimensionSetsOf c tags).length := by
  refine ⟨?_, ?_, ?_⟩
  · rw [buildMetricDatum_fst]
    simp [buildFieldDatums, convertFieldValue, flatMapSingle, List.map_map,
      Function.comp_def, mapFunConst]
  · rw [buildMetricDatum_fst]
    simp [buildFieldDatums, convertFieldValue, flatMapSingle, List.map_map,
      Function.comp_def, mapFunConst]
  · rw [dimensionSetsOf]
    exact processRollup_length_pos c _
